import Mathlib

/-!
Shallow embedding of the warhammer-annotation-tool core, checked against its
natural-language specification.

Sources embedded:
- backend annotation service (src/unnamed/part_007, class AnnotationService):
  geometry validator, IoU, and the YOLO dataset export;
- export HTTP endpoint (src/backend/src/middleware/errorHandler.ts,
  POST /api/annotate/export);
- frontend editor (src/frontend/src/components/BboxAnnotator.tsx):
  coordinate transforms, base-box constraining, and the command log.

Numbers are embedded as rationals: the claims under check are stated by the
spec "exactly in real arithmetic and modulo floating-point tolerance", and
every arithmetic operation the embedded code performs (+, -, *, /, min, max,
comparisons) is exact on the concrete inputs involved.  The one non-finite
JS result that matters (0/0 = NaN inside calculateIoU) is modelled
explicitly with an Option.
-/

/-- A rectangle in image pixel coordinates: the `{x, y, width, height}` shape
used throughout the TypeScript sources. -/
structure Rect where
  x : ℚ
  y : ℚ
  width : ℚ
  height : ℚ
  deriving DecidableEq

/-- `QualityIssue.type` from the annotation service ('error' | 'warning'). -/
inductive IssueType where
  | error
  | warning
  deriving DecidableEq

/-- `QualityIssue.code` from the annotation service (closed set). -/
inductive IssueCode where
  | BASE_OUTSIDE_MODEL
  | BBOX_OUT_OF_BOUNDS
  | BBOX_TOO_SMALL
  | DUPLICATE_BOX
  deriving DecidableEq

/-- `QualityIssue` from the annotation service.  Message strings are embedded
without the interpolated numeric parts (no claim inspects message text). -/
structure QualityIssue where
  type : IssueType
  code : IssueCode
  message : String
  bboxId : Option String
  deriving DecidableEq

/-- `BboxAnnotationData` from the annotation service: one model box with an
optional nested base box. -/
structure BboxAnnotationData where
  id : String
  modelBbox : Rect
  baseBbox : Option Rect
  classLabel : String
  confidence : Option ℚ
  deriving DecidableEq

/-- The persisted per-image record (interface `ImageAnnotation` in the
annotation service; the spec's ImageAnnotationRecord).  The inert metadata
fields faction / source / annotatedAt / annotatedBy are omitted: no embedded
operation reads them. -/
structure ImageAnnotationRecord where
  imageId : String
  imagePath : String
  width : ℚ
  height : ℚ
  annotations : List BboxAnnotationData
  deriving DecidableEq

/-- `AnnotationService.calculateIoU`.  Returns `some` of the exact
intersection-over-union; `none` models the non-finite JS result when the
union area is zero (for rectangles of non-negative size that is exactly the
`0/0 = NaN` case of two touching zero-area rectangles). -/
def calculateIoU (a b : Rect) : Option ℚ :=
  let a_x1 := a.x
  let a_y1 := a.y
  let a_x2 := a.x + a.width
  let a_y2 := a.y + a.height
  let b_x1 := b.x
  let b_y1 := b.y
  let b_x2 := b.x + b.width
  let b_y2 := b.y + b.height
  let x1 := max a_x1 b_x1
  let y1 := max a_y1 b_y1
  let x2 := min a_x2 b_x2
  let y2 := min a_y2 b_y2
  if x2 < x1 ∨ y2 < y1 then some 0
  else
    let intersection := (x2 - x1) * (y2 - y1)
    let areaA := a.width * a.height
    let areaB := b.width * b.height
    let union := areaA + areaB - intersection
    if union = 0 then none else some (intersection / union)

/-- The three per-bbox checks of `AnnotationService.validateAnnotation`, in
source order: bounds (error), minimum size (warning), base containment
(error). -/
def bboxIssues (imgWidth imgHeight : ℚ) (bbox : BboxAnnotationData) : List QualityIssue :=
  let model := bbox.modelBbox
  (if model.x < 0 ∨ model.y < 0 ∨ model.x + model.width > imgWidth ∨
      model.y + model.height > imgHeight then
    [⟨IssueType.error, IssueCode.BBOX_OUT_OF_BOUNDS,
      "Model bbox extends beyond image", some bbox.id⟩]
  else []) ++
  (if model.width < 10 ∨ model.height < 10 then
    [⟨IssueType.warning, IssueCode.BBOX_TOO_SMALL,
      "Model bbox very small", some bbox.id⟩]
  else []) ++
  (match bbox.baseBbox with
   | some base =>
      if base.x < model.x ∨ base.y < model.y ∨
          base.x + base.width > model.x + model.width ∨
          base.y + base.height > model.y + model.height then
        [⟨IssueType.error, IssueCode.BASE_OUTSIDE_MODEL,
          "Base bbox extends outside model bbox", some bbox.id⟩]
      else []
   | none => [])

/-- The `i < j` duplicate-overlap double loop of
`AnnotationService.validateAnnotation` (check 4): each pair with IoU above
0.9 yields a DUPLICATE_BOX warning carrying the first box's id.  A `none`
IoU (NaN in JS) fails the `iou > 0.9` comparison, as NaN does. -/
def duplicateIssues : List BboxAnnotationData → List QualityIssue
  | [] => []
  | a :: rest =>
      (rest.filterMap fun b =>
        match calculateIoU a.modelBbox b.modelBbox with
        | some iou =>
            if iou > 9 / 10 then
              some ⟨IssueType.warning, IssueCode.DUPLICATE_BOX,
                "High overlap between boxes", some a.id⟩
            else none
        | none => none) ++ duplicateIssues rest

/-- `AnnotationService.validateAnnotation`.  `metadata` is the image's pixel
dimensions as read by sharp from the image file; `none` models that read
throwing, which the source catches and turns into a generic error issue
(type 'error', code BBOX_OUT_OF_BOUNDS, message "Failed to validate: ...",
and no bboxId). -/
def validateAnnotationRecord (metadata : Option (ℚ × ℚ)) (rec : ImageAnnotationRecord) :
    List QualityIssue :=
  match metadata with
  | none => [⟨IssueType.error, IssueCode.BBOX_OUT_OF_BOUNDS, "Failed to validate", none⟩]
  | some (imgWidth, imgHeight) =>
      (rec.annotations.flatMap (bboxIssues imgWidth imgHeight)) ++
        duplicateIssues rec.annotations

/-- `i.type == 'error'`. -/
def QualityIssue.isError : QualityIssue → Bool
  | ⟨IssueType.error, _, _, _⟩ => true
  | _ => false

/-- `i.type == 'warning'`. -/
def QualityIssue.isWarning : QualityIssue → Bool
  | ⟨IssueType.warning, _, _, _⟩ => true
  | _ => false

/-- The aggregate counters returned by
`AnnotationService.validateAllAnnotations` (the per-image issue breakdown is
not carried: no claim reads it). -/
structure DatasetValidation where
  totalAnnotations : ℕ
  validAnnotations : ℕ
  invalidAnnotations : ℕ
  warningAnnotations : ℕ
  totalErrors : ℕ
  totalWarnings : ℕ
  deriving DecidableEq

/-- `AnnotationService.validateAllAnnotations`: runs the per-image validator
over every annotated record and aggregates counts exactly as the source's
loop does.  `dims` maps an image path to the dimensions sharp reads for it
(`none` = read failure). -/
def validateAllAnnotations (dims : String → Option (ℚ × ℚ))
    (records : List ImageAnnotationRecord) : DatasetValidation :=
  records.foldl
    (fun acc rec =>
      let issues := validateAnnotationRecord (dims rec.imagePath) rec
      let errors := issues.filter QualityIssue.isError
      let warnings := issues.filter QualityIssue.isWarning
      ⟨acc.totalAnnotations + 1,
       acc.validAnnotations + (if errors.length > 0 then 0 else 1),
       acc.invalidAnnotations + (if errors.length > 0 then 1 else 0),
       acc.warningAnnotations +
         (if errors.length = 0 ∧ warnings.length > 0 then 1 else 0),
       acc.totalErrors + errors.length,
       acc.totalWarnings + warnings.length⟩)
    ⟨0, 0, 0, 0, 0, 0⟩

/-- The filesystem effects of the export, traced in the order the source
performs them.  File names are identified by the record's imageId (the
source derives both the copied image's and the label file's name from the
same source basename). -/
inductive FsAction where
  | mkdirAct (dir : String)
  | copyImage (split : String) (imageId : String)
  | writeLabel (split : String) (imageId : String) (lines : List (List ℚ))
  | writeClasses (classes : List String)
  | writeYaml (classes : List String)
  deriving DecidableEq

/-- One line of a YOLO label file as the list of its numeric fields, before
`toFixed(6)` formatting: class index, normalized center x/y and width/height,
then — only when a base box exists — the 12 keypoint values (four corners
TL, TR, BR, BL, each as x/imageWidth, y/imageHeight, visibility 1).
From the per-annotation body of `AnnotationService.exportImageAndLabel`. -/
def yoloLine (classIndex : ℕ) (imageWidth imageHeight : ℚ) (ann : BboxAnnotationData) :
    List ℚ :=
  let x_center := (ann.modelBbox.x + ann.modelBbox.width / 2) / imageWidth
  let y_center := (ann.modelBbox.y + ann.modelBbox.height / 2) / imageHeight
  let width := ann.modelBbox.width / imageWidth
  let height := ann.modelBbox.height / imageHeight
  match ann.baseBbox with
  | some bb =>
      [(classIndex : ℚ), x_center, y_center, width, height,
       bb.x / imageWidth, bb.y / imageHeight, 1,
       (bb.x + bb.width) / imageWidth, bb.y / imageHeight, 1,
       (bb.x + bb.width) / imageWidth, (bb.y + bb.height) / imageHeight, 1,
       bb.x / imageWidth, (bb.y + bb.height) / imageHeight, 1]
  | none => [(classIndex : ℚ), x_center, y_center, width, height]

/-- The label-file content built by `AnnotationService.exportImageAndLabel`:
one yoloLine per annotation, skipping annotations whose class label is not
in the class index (`if (classIndex === undefined) continue`). -/
def exportLabelLines (classToIndex : String → Option ℕ) (imageWidth imageHeight : ℚ)
    (anns : List BboxAnnotationData) : List (List ℚ) :=
  anns.filterMap fun ann =>
    (classToIndex ann.classLabel).map fun ci => yoloLine ci imageWidth imageHeight ann

/-- `AnnotationService.exportImageAndLabel`: copies the image into the
split's image directory and writes the encoded label under the matching
split's label directory. -/
def exportImageAndLabel (split : String) (classToIndex : String → Option ℕ)
    (rec : ImageAnnotationRecord) : List FsAction :=
  [FsAction.copyImage split rec.imageId,
   FsAction.writeLabel split rec.imageId
     (exportLabelLines classToIndex rec.width rec.height rec.annotations)]

/-- The sorted list of distinct class labels over the exported records
(`Array.from(classesSet).sort()`). -/
def classesOf (recs : List ImageAnnotationRecord) : List String :=
  ((recs.flatMap fun r => r.annotations.map (·.classLabel)).dedup).insertionSort (· ≤ ·)

/-- The failure `exportToYOLO` can raise before doing any filesystem work
(`throw new Error('No annotated images found')`). -/
inductive ExportError where
  | noAnnotatedImages
  deriving DecidableEq

/-- The summary `exportToYOLO` returns. -/
structure ExportResult where
  trainImages : ℕ
  valImages : ℕ
  deriving DecidableEq

/-- `AnnotationService.exportToYOLO`.  `records` holds the annotation record
of every annotated image (the store lookups); `shuffle` stands for the
unseeded `[...xs].sort(() => Math.random() - 0.5)` and is passed explicitly.
Returns the source's `{trainImages, valImages}` summary together with the
ordered trace of filesystem effects.  Note the only precondition the source
checks is that at least one annotated image exists; after it, the four
output directories are created unconditionally, records with an empty
annotation list are dropped (`annotation.annotations.length > 0`), the rest
are shuffled and split at `Math.floor(length * trainSplit)`. -/
def exportToYOLO
    (shuffle : List ImageAnnotationRecord → List ImageAnnotationRecord)
    (records : List ImageAnnotationRecord) (trainSplit : ℚ) :
    Except ExportError (ExportResult × List FsAction) :=
  if records.length = 0 then
    Except.error ExportError.noAnnotatedImages
  else
    let mkdirActs : List FsAction :=
      [FsAction.mkdirAct "images/train", FsAction.mkdirAct "images/val",
       FsAction.mkdirAct "labels/train", FsAction.mkdirAct "labels/val"]
    let withAnns := records.filter fun r => r.annotations.length > 0
    let classes := classesOf withAnns
    let classToIndex : String → Option ℕ := fun c => classes.findIdx? (fun x => x == c)
    let shuffled := shuffle withAnns
    let trainCount := (⌊(shuffled.length : ℚ) * trainSplit⌋).toNat
    let trainSet := shuffled.take trainCount
    let valSet := shuffled.drop trainCount
    let trainActs := trainSet.flatMap (exportImageAndLabel "train" classToIndex)
    let valActs := valSet.flatMap (exportImageAndLabel "val" classToIndex)
    Except.ok (⟨trainSet.length, valSet.length⟩,
      mkdirActs ++ trainActs ++ valActs ++
        [FsAction.writeClasses classes, FsAction.writeYaml classes])

/-- The responses of the export endpoint (POST /api/annotate/export in
errorHandler.ts): a 400 VALIDATION_FAILED refusal, a propagated
exportToYOLO failure, or success. -/
inductive EndpointResponse where
  | validationFailed (totalErrors invalidAnnotations : ℕ)
  | exportFailure (e : ExportError)
  | ok (res : ExportResult)
  deriving DecidableEq

/-- The export endpoint: runs `validateAllAnnotations` first and refuses
(with no filesystem effect) while any record carries a blocking error; only
then invokes `exportToYOLO`. -/
def exportEndpoint (dims : String → Option (ℚ × ℚ))
    (shuffle : List ImageAnnotationRecord → List ImageAnnotationRecord)
    (records : List ImageAnnotationRecord) (trainSplit : ℚ) :
    EndpointResponse × List FsAction :=
  let v := validateAllAnnotations dims records
  if v.invalidAnnotations > 0 then
    (EndpointResponse.validationFailed v.totalErrors v.invalidAnnotations, [])
  else
    match exportToYOLO shuffle records trainSplit with
    | Except.error e => (EndpointResponse.exportFailure e, [])
    | Except.ok (res, acts) => (EndpointResponse.ok res, acts)

/-- The frontend annotation item (interface `BboxAnnotation` in
frontend/src/types.ts): a flat model box with an optional nested base
box. -/
structure BboxAnnotationUI where
  id : String
  x : ℚ
  y : ℚ
  width : ℚ
  height : ℚ
  classLabel : String
  baseBbox : Option Rect
  deriving DecidableEq

/-- The viewport state of BboxAnnotator: fit-to-container scale, user zoom,
pan offsets. -/
structure Viewport where
  scale : ℚ
  zoom : ℚ
  panX : ℚ
  panY : ℚ
  deriving DecidableEq

/-- `screenToImage` from BboxAnnotator: canvas pixels to image pixels. -/
def screenToImage (v : Viewport) (screenX screenY : ℚ) : ℚ × ℚ :=
  let effectiveScale := v.scale * v.zoom
  ((screenX - v.panX) / effectiveScale, (screenY - v.panY) / effectiveScale)

/-- `imageToScreen` from BboxAnnotator: image pixels to canvas pixels. -/
def imageToScreen (v : Viewport) (imageX imageY : ℚ) : ℚ × ℚ :=
  let effectiveScale := v.scale * v.zoom
  (imageX * effectiveScale + v.panX, imageY * effectiveScale + v.panY)

/-- `constrainToModelBbox` from BboxAnnotator: the drawn rectangle (any drag
direction) clamped to the selected model box's bounds, with width/height
floored at 0. -/
def constrainToModelBbox (startX startY currentX currentY : ℚ)
    (modelBbox : BboxAnnotationUI) : Rect :=
  let minX := min startX currentX
  let minY := min startY currentY
  let maxX := max startX currentX
  let maxY := max startY currentY
  let modelMinX := modelBbox.x
  let modelMinY := modelBbox.y
  let modelMaxX := modelBbox.x + modelBbox.width
  let modelMaxY := modelBbox.y + modelBbox.height
  let constrainedMinX := max minX modelMinX
  let constrainedMinY := max minY modelMinY
  let constrainedMaxX := min maxX modelMaxX
  let constrainedMaxY := min maxY modelMaxY
  ⟨constrainedMinX, constrainedMinY,
   max 0 (constrainedMaxX - constrainedMinX),
   max 0 (constrainedMaxY - constrainedMinY)⟩

/-- The base-box commit path of `handleMouseUp` (mode 'base' with a selected
box, in image coordinates): the drawn rectangle is constrained to the
selected model box, and the AddBaseBoxCommand is issued only when the
constrained rectangle still has positive width and height. -/
def commitBaseBbox (startX startY currentX currentY : ℚ)
    (sel : BboxAnnotationUI) : Option Rect :=
  let baseBbox := constrainToModelBbox startX startY currentX currentY sel
  if baseBbox.width > 0 ∧ baseBbox.height > 0 then some baseBbox else none

/-- The command objects of BboxAnnotator (AddModelBoxCommand,
DeleteModelBoxCommand, AddBaseBoxCommand, DeleteBaseBoxCommand), each
holding the delta its execute/undo need. -/
inductive Command where
  | addModel (bbox : BboxAnnotationUI)
  | deleteModel (bbox : BboxAnnotationUI)
  | addBase (modelId : String) (baseBbox : Rect)
  | deleteBase (modelId : String) (baseBbox : Rect)
  deriving DecidableEq

/-- The `execute` methods of the four command classes. -/
def Command.execute : Command → List BboxAnnotationUI → List BboxAnnotationUI
  | Command.addModel bbox, anns => anns ++ [bbox]
  | Command.deleteModel bbox, anns => anns.filter fun a => a.id != bbox.id
  | Command.addBase modelId baseBbox, anns =>
      anns.map fun a => if a.id = modelId then { a with baseBbox := some baseBbox } else a
  | Command.deleteBase modelId _, anns =>
      anns.map fun a => if a.id = modelId then { a with baseBbox := none } else a

/-- The `undo` methods of the four command classes.  Note
AddBaseBoxCommand.undo sets the target's baseBbox to undefined
unconditionally: the previous base box is not stored. -/
def Command.undoOn : Command → List BboxAnnotationUI → List BboxAnnotationUI
  | Command.addModel bbox, anns => anns.filter fun a => a.id != bbox.id
  | Command.deleteModel bbox, anns => anns ++ [bbox]
  | Command.addBase modelId _, anns =>
      anns.map fun a => if a.id = modelId then { a with baseBbox := none } else a
  | Command.deleteBase modelId baseBbox, anns =>
      anns.map fun a => if a.id = modelId then { a with baseBbox := some baseBbox } else a

/-- The editor's command-log state: the annotation collection plus the
undo/redo stacks (top of stack = last list element, as in the source's
`[...prev, command]`). -/
structure EditorState where
  annotations : List BboxAnnotationUI
  undoStack : List Command
  redoStack : List Command
  deriving DecidableEq

/-- `executeCommand` from BboxAnnotator: apply, push onto the undo stack,
clear the redo stack. -/
def executeCommand (command : Command) (s : EditorState) : EditorState :=
  ⟨command.execute s.annotations, s.undoStack ++ [command], []⟩

/-- `undo` from BboxAnnotator: no-op on an empty undo stack; otherwise apply
the top command's undo and move it to the redo stack. -/
def undo (s : EditorState) : EditorState :=
  match s.undoStack.getLast? with
  | none => s
  | some command =>
      ⟨command.undoOn s.annotations, s.undoStack.dropLast, s.redoStack ++ [command]⟩

/-- `redo` from BboxAnnotator: no-op on an empty redo stack; otherwise
re-apply the top command and move it back to the undo stack. -/
def redo (s : EditorState) : EditorState :=
  match s.redoStack.getLast? with
  | none => s
  | some command =>
      ⟨command.execute s.annotations, s.undoStack ++ [command], s.redoStack.dropLast⟩

/-- `n` sequential `undo` calls. -/
def undoN (n : ℕ) (s : EditorState) : EditorState :=
  undo^[n] s

/-- Sequential `executeCommand` calls adding one model box each (the commit
path of `handleMouseUp` in 'model' mode). -/
def execAdds (boxes : List BboxAnnotationUI) (s : EditorState) : EditorState :=
  boxes.foldl (fun st b => executeCommand (Command.addModel b) st) s

/-- The first box of the spec's duplicate example. -/
def dupBoxA : BboxAnnotationData := ⟨"1", ⟨100, 100, 100, 100⟩, none, "miniature", none⟩

/-- The second box of the spec's duplicate example. -/
def dupBoxB : BboxAnnotationData := ⟨"2", ⟨105, 105, 100, 100⟩, none, "miniature", none⟩

/-- The spec's duplicate-example image: exactly the two boxes, both inside a
1000x800 image (the dimensions the repository's own validation tests mock
sharp to return). -/
def dupImage : ImageAnnotationRecord :=
  ⟨"test_image", "/path/to/test.jpg", 1000, 800, [dupBoxA, dupBoxB]⟩

/-- A record with one out-of-bounds model box (x = -5): a blocking
BBOX_OUT_OF_BOUNDS validation error. -/
def invalidRec : ImageAnnotationRecord :=
  ⟨"bad_image", "bad.jpg", 1000, 800,
    [⟨"1", ⟨-5, 10, 100, 100⟩, none, "miniature", none⟩]⟩

/-- An annotated record whose annotation list is empty (a "nothing present"
record). -/
def emptyRec : ImageAnnotationRecord := ⟨"empty_image", "empty.jpg", 1000, 800, []⟩

/-- Image dimensions as sharp would read them: constantly 1000x800. -/
def dimsConst : String → Option (ℚ × ℚ) := fun _ => some (1000, 800)

/-- A sample annotation without a base box. -/
def sampleNoBase : BboxAnnotationData := ⟨"a", ⟨-5, 10, 100, 100⟩, none, "miniature", none⟩

/-- A sample annotation with a base box. -/
def sampleWithBase : BboxAnnotationData :=
  ⟨"b", ⟨100, 100, 200, 200⟩, some ⟨120, 150, 100, 80⟩, "miniature", none⟩

/-- A sample selected model box for the base-drawing path. -/
def sampleSel : BboxAnnotationUI := ⟨"m", 0, 0, 100, 100, "miniature", none⟩

/-- Sample frontend boxes for the undo/redo scenario. -/
def uiBoxA : BboxAnnotationUI := ⟨"a", 0, 0, 20, 20, "miniature", none⟩

def uiBoxB : BboxAnnotationUI := ⟨"b", 30, 30, 20, 20, "miniature", none⟩

def uiBoxC : BboxAnnotationUI := ⟨"c", 60, 60, 20, 20, "miniature", none⟩

/-- A frontend box that already carries a base box. -/
def uiBoxWithBase : BboxAnnotationUI := ⟨"m", 0, 0, 100, 100, "miniature", some ⟨10, 10, 20, 20⟩⟩

/-- C5.  For every image point and every viewport whose fit scale is
positive and whose zoom is inside the clamp range [0.1, 10], mapping the
point to screen coordinates and back is the identity (exactly, in rational
arithmetic). -/
theorem screen_image_roundtrip (v : Viewport) (x y : ℚ)
    (hscale : 0 < v.scale) (hzoomLo : 1 / 10 ≤ v.zoom) (hzoomHi : v.zoom ≤ 10) :
    screenToImage v (imageToScreen v x y).1 (imageToScreen v x y).2 = (x, y) := by
  have hzoom : 0 < v.zoom := lt_of_lt_of_le (by norm_num) hzoomLo
  have heff : v.scale * v.zoom ≠ 0 := ne_of_gt (mul_pos hscale hzoom)
  simp only [screenToImage, imageToScreen, Prod.mk.injEq]
  constructor <;> field_simp

/-- Witness for C5 at a concrete viewport and point. -/
theorem screen_image_roundtrip_witness :
    screenToImage ⟨1 / 2, 2, 30, -7⟩
      (imageToScreen ⟨1 / 2, 2, 30, -7⟩ 5 9).1
      (imageToScreen ⟨1 / 2, 2, 30, -7⟩ 5 9).2 = (5, 9) :=
  screen_image_roundtrip ⟨1 / 2, 2, 30, -7⟩ 5 9 (by norm_num) (by norm_num) (by norm_num)

/-- C3.  Evaluating the validator at the spec's duplicate example (the exact
input the repository's own test
`annotationService.validation.test.ts` asserts to produce a DUPLICATE_BOX
warning, with sharp mocked to 1000x800): the code returns no issue at all.
The pair's IoU is 361/439 ≈ 0.822, which does not exceed the 0.9 threshold,
so the DUPLICATE_BOX branch does not fire. -/
theorem duplicate_example_produces_no_warning :
    validateAnnotationRecord (some (1000, 800)) dupImage = [] ∧
    calculateIoU dupBoxA.modelBbox dupBoxB.modelBbox = some (361 / 439) ∧
    (361 / 439 : ℚ) < 9 / 10 := by
  refine ⟨?_, ?_, by norm_num⟩
  · norm_num [validateAnnotationRecord, dupImage, dupBoxA, dupBoxB, bboxIssues,
      duplicateIssues, calculateIoU]
  · norm_num [calculateIoU, dupBoxA, dupBoxB]

/-- Counterexample to C7 as stated: at two touching zero-area rectangles
(width and height 0, so non-negative), the source computes `0 / 0`, which in
JS is NaN — modelled as `none`, not a number in [0, 1]. -/
theorem calculateIoU_nan_case :
    calculateIoU ⟨0, 0, 0, 0⟩ ⟨0, 0, 0, 0⟩ = none := by
  norm_num [calculateIoU]

/-- C7 (amended).  For rectangles of non-negative width and height,
calculateIoU is symmetric, and whenever it returns a numeric value (the
union area is nonzero — only the 0/0 NaN case of two touching zero-area
rectangles is excluded) that value lies in [0, 1]. -/
theorem calculateIoU_symm_unit_interval (a b : Rect)
    (ha1 : 0 ≤ a.width) (ha2 : 0 ≤ a.height) (hb1 : 0 ≤ b.width) (hb2 : 0 ≤ b.height) :
    calculateIoU a b = calculateIoU b a ∧
    ∀ q : ℚ, calculateIoU a b = some q → 0 ≤ q ∧ q ≤ 1 := by
  constructor
  · simp only [calculateIoU]
    rw [max_comm b.x a.x, max_comm b.y a.y, min_comm (b.x + b.width) (a.x + a.width),
      min_comm (b.y + b.height) (a.y + a.height),
      add_comm (b.width * b.height) (a.width * a.height)]
  · intro q hq
    simp only [calculateIoU] at hq
    by_cases hcond : min (a.x + a.width) (b.x + b.width) < max a.x b.x ∨
        min (a.y + a.height) (b.y + b.height) < max a.y b.y
    · rw [if_pos hcond] at hq
      obtain rfl := Option.some.inj hq
      norm_num
    · rw [if_neg hcond] at hq
      push_neg at hcond
      obtain ⟨hx, hy⟩ := hcond
      set X1 := max a.x b.x with hX1
      set X2 := min (a.x + a.width) (b.x + b.width) with hX2
      set Y1 := max a.y b.y with hY1
      set Y2 := min (a.y + a.height) (b.y + b.height) with hY2
      by_cases hu : a.width * a.height + b.width * b.height - (X2 - X1) * (Y2 - Y1) = 0
      · rw [if_pos hu] at hq
        exact absurd hq (by simp)
      · rw [if_neg hu] at hq
        obtain rfl := Option.some.inj hq
        have hxa2 : X2 ≤ a.x + a.width := min_le_left _ _
        have hxa1 : a.x ≤ X1 := le_max_left _ _
        have hxb2 : X2 ≤ b.x + b.width := min_le_right _ _
        have hxb1 : b.x ≤ X1 := le_max_right _ _
        have hya2 : Y2 ≤ a.y + a.height := min_le_left _ _
        have hya1 : a.y ≤ Y1 := le_max_left _ _
        have hyb2 : Y2 ≤ b.y + b.height := min_le_right _ _
        have hyb1 : b.y ≤ Y1 := le_max_right _ _
        have hwa : X2 - X1 ≤ a.width := by linarith
        have hwb : X2 - X1 ≤ b.width := by linarith
        have hha : Y2 - Y1 ≤ a.height := by linarith
        have hhb : Y2 - Y1 ≤ b.height := by linarith
        have hxnn : 0 ≤ X2 - X1 := by linarith
        have hynn : 0 ≤ Y2 - Y1 := by linarith
        have hia : (X2 - X1) * (Y2 - Y1) ≤ a.width * a.height := mul_le_mul hwa hha hynn ha1
        have hib : (X2 - X1) * (Y2 - Y1) ≤ b.width * b.height := mul_le_mul hwb hhb hynn hb1
        have hinn : 0 ≤ (X2 - X1) * (Y2 - Y1) := mul_nonneg hxnn hynn
        have hBnn : 0 ≤ b.width * b.height := mul_nonneg hb1 hb2
        have hunn : 0 ≤ a.width * a.height + b.width * b.height - (X2 - X1) * (Y2 - Y1) := by
          linarith
        have hupos : 0 < a.width * a.height + b.width * b.height - (X2 - X1) * (Y2 - Y1) :=
          lt_of_le_of_ne hunn (Ne.symm hu)
        constructor
        · exact div_nonneg hinn hunn
        · rw [div_le_one hupos]
          linarith

/-- Witness for C7 at the concrete duplicate-example rectangles. -/
theorem calculateIoU_symm_unit_interval_witness :
    calculateIoU ⟨100, 100, 100, 100⟩ ⟨105, 105, 100, 100⟩ =
      calculateIoU ⟨105, 105, 100, 100⟩ ⟨100, 100, 100, 100⟩ ∧
    (0 ≤ (361 / 439 : ℚ) ∧ (361 / 439 : ℚ) ≤ 1) := by
  have h := calculateIoU_symm_unit_interval ⟨100, 100, 100, 100⟩ ⟨105, 105, 100, 100⟩
    (by norm_num) (by norm_num) (by norm_num) (by norm_num)
  exact ⟨h.1, h.2 (361 / 439) (by norm_num [calculateIoU])⟩

/-- C4.  For one image at known dimensions, an annotation without a base box
encodes to exactly the 5 fields class index, center x/y and width/height
normalized by the image dimensions, with no keypoint fields; one with a base
box encodes to those 5 fields followed by exactly 12 keypoint values: the
base box's corners clockwise from top-left (TL, TR, BR, BL), each as
(x/imageWidth, y/imageHeight, visibility 1). -/
theorem yoloLine_fields (classIndex : ℕ) (imageWidth imageHeight : ℚ)
    (ann : BboxAnnotationData) :
    (ann.baseBbox = none →
      yoloLine classIndex imageWidth imageHeight ann =
        [(classIndex : ℚ),
         (ann.modelBbox.x + ann.modelBbox.width / 2) / imageWidth,
         (ann.modelBbox.y + ann.modelBbox.height / 2) / imageHeight,
         ann.modelBbox.width / imageWidth,
         ann.modelBbox.height / imageHeight]) ∧
    (∀ bb, ann.baseBbox = some bb →
      yoloLine classIndex imageWidth imageHeight ann =
        [(classIndex : ℚ),
         (ann.modelBbox.x + ann.modelBbox.width / 2) / imageWidth,
         (ann.modelBbox.y + ann.modelBbox.height / 2) / imageHeight,
         ann.modelBbox.width / imageWidth,
         ann.modelBbox.height / imageHeight,
         bb.x / imageWidth, bb.y / imageHeight, 1,
         (bb.x + bb.width) / imageWidth, bb.y / imageHeight, 1,
         (bb.x + bb.width) / imageWidth, (bb.y + bb.height) / imageHeight, 1,
         bb.x / imageWidth, (bb.y + bb.height) / imageHeight, 1]) := by
  constructor
  · intro h
    simp [yoloLine, h]
  · intro bb h
    simp [yoloLine, h]

/-- Witness for C4: concrete encodings of a base-less and a based
annotation in a 1000x800 image — 5 fields and 5 + 12 fields. -/
theorem yoloLine_fields_witness :
    yoloLine 0 1000 800 sampleNoBase = [0, 9 / 200, 3 / 40, 1 / 10, 1 / 8] ∧
    yoloLine 0 1000 800 sampleWithBase =
      [0, 1 / 5, 1 / 4, 1 / 5, 1 / 4,
       3 / 25, 3 / 16, 1, 11 / 50, 3 / 16, 1,
       11 / 50, 23 / 80, 1, 3 / 25, 23 / 80, 1] := by
  constructor
  · have h := (yoloLine_fields 0 1000 800 sampleNoBase).1 rfl
    rw [h]
    norm_num [sampleNoBase]
  · have h := (yoloLine_fields 0 1000 800 sampleWithBase).2 ⟨120, 150, 100, 80⟩ rfl
    rw [h]
    norm_num [sampleWithBase]

/-- Counterexample to C1 as stated: on a dataset whose single annotated image
carries a blocking BBOX_OUT_OF_BOUNDS error, `exportToYOLO` itself does not
refuse — it creates the four output directories and writes the image, its
label, the class list and the manifest. -/
theorem exportToYOLO_no_validation_check :
    0 < (validateAllAnnotations dimsConst [invalidRec]).invalidAnnotations ∧
    exportToYOLO id [invalidRec] (4 / 5) =
      Except.ok (⟨0, 1⟩,
        [FsAction.mkdirAct "images/train", FsAction.mkdirAct "images/val",
         FsAction.mkdirAct "labels/train", FsAction.mkdirAct "labels/val",
         FsAction.copyImage "val" "bad_image",
         FsAction.writeLabel "val" "bad_image" [[0, 9 / 200, 3 / 40, 1 / 10, 1 / 8]],
         FsAction.writeClasses ["miniature"], FsAction.writeYaml ["miniature"]]) := by
  constructor
  · norm_num [validateAllAnnotations, validateAnnotationRecord, dimsConst, invalidRec,
      bboxIssues, duplicateIssues, QualityIssue.isError, QualityIssue.isWarning]
  · norm_num [exportToYOLO, invalidRec, classesOf, List.dedup, List.pwFilter,
      List.insertionSort, List.orderedInsert, List.findIdx?, exportImageAndLabel,
      exportLabelLines, List.filterMap_cons, yoloLine]

/-- C1 (amended).  The dataset-wide validation precondition lives in the
export endpoint (POST /api/annotate/export), not in `exportToYOLO`: while
any annotated record carries a blocking error the endpoint refuses with
VALIDATION_FAILED, performing no filesystem write, before `exportToYOLO` is
ever invoked; `exportToYOLO` itself checks only that some annotated image
exists, and that zero-annotated-images failure is distinct from the
validation refusal. -/
theorem export_endpoint_refuses_on_errors (dims : String → Option (ℚ × ℚ))
    (shuffle : List ImageAnnotationRecord → List ImageAnnotationRecord)
    (records : List ImageAnnotationRecord) (trainSplit : ℚ)
    (h : 0 < (validateAllAnnotations dims records).invalidAnnotations) :
    exportEndpoint dims shuffle records trainSplit =
      (EndpointResponse.validationFailed (validateAllAnnotations dims records).totalErrors
        (validateAllAnnotations dims records).invalidAnnotations, []) ∧
    exportEndpoint dims shuffle [] trainSplit =
      (EndpointResponse.exportFailure ExportError.noAnnotatedImages, []) ∧
    ∀ e i : ℕ, EndpointResponse.exportFailure ExportError.noAnnotatedImages ≠
      EndpointResponse.validationFailed e i := by
  refine ⟨?_, ?_, fun e i => by simp⟩
  · simp [exportEndpoint, h]
  · simp [exportEndpoint, validateAllAnnotations, exportToYOLO]

/-- Witness for C1 (amended) on a concrete invalid dataset: the endpoint
refuses with VALIDATION_FAILED (1 error in 1 record) and writes nothing. -/
theorem export_endpoint_refuses_on_errors_witness :
    exportEndpoint dimsConst id [invalidRec] (4 / 5) =
      (EndpointResponse.validationFailed 1 1, []) := by
  have hv : validateAllAnnotations dimsConst [invalidRec] = ⟨1, 0, 1, 0, 1, 0⟩ := by
    norm_num [validateAllAnnotations, validateAnnotationRecord, dimsConst, invalidRec,
      bboxIssues, duplicateIssues, QualityIssue.isError, QualityIssue.isWarning]
  have h := (export_endpoint_refuses_on_errors dimsConst id [invalidRec] (4 / 5)
    (by rw [hv]; exact Nat.one_pos)).1
  rw [h, hv]

/-- C2.  Evaluating the export on a dataset whose single annotated record
has an empty annotation list: the record passes the zero-annotated-images
check but is then dropped by the `annotations.length > 0` filter — no image
copy and no label write happens for it, where the claim (and the
repository's own design notes) say an empty label file should be written.
`exportImageAndLabel`, had it been invoked on the record, would indeed have
written an empty label file. -/
theorem export_skips_empty_record :
    exportToYOLO id [emptyRec] (4 / 5) =
      Except.ok (⟨0, 0⟩,
        [FsAction.mkdirAct "images/train", FsAction.mkdirAct "images/val",
         FsAction.mkdirAct "labels/train", FsAction.mkdirAct "labels/val",
         FsAction.writeClasses [], FsAction.writeYaml []]) ∧
    exportImageAndLabel "train" (fun _ => none) emptyRec =
      [FsAction.copyImage "train" "empty_image",
       FsAction.writeLabel "train" "empty_image" []] := by
  constructor
  · norm_num [exportToYOLO, emptyRec, classesOf, List.dedup, List.pwFilter,
      List.insertionSort]
  · norm_num [exportImageAndLabel, exportLabelLines, emptyRec]

/-- Every issue of the per-bbox checks carries the checked annotation's id. -/
lemma bboxIssues_bboxId (imgWidth imgHeight : ℚ) (bbox : BboxAnnotationData)
    (issue : QualityIssue) (hmem : issue ∈ bboxIssues imgWidth imgHeight bbox) :
    issue.bboxId = some bbox.id := by
  cases hb : bbox.baseBbox with
  | none =>
      simp only [bboxIssues, hb, List.mem_append] at hmem
      rcases hmem with (h | h) | h
      · split_ifs at h <;> simp_all
      · split_ifs at h <;> simp_all
      · simp at h
  | some base =>
      simp only [bboxIssues, hb, List.mem_append] at hmem
      rcases hmem with (h | h) | h <;> split_ifs at h <;> simp_all

/-- Every issue of the duplicate-overlap loop is an advisory warning. -/
lemma duplicateIssues_warning (l : List BboxAnnotationData) (issue : QualityIssue)
    (hmem : issue ∈ duplicateIssues l) : issue.type = IssueType.warning := by
  induction l with
  | nil => simp [duplicateIssues] at hmem
  | cons a rest ih =>
      simp only [duplicateIssues, List.mem_append] at hmem
      rcases hmem with h | h
      · rw [List.mem_filterMap] at h
        obtain ⟨b, _, hb⟩ := h
        cases hio : calculateIoU a.modelBbox b.modelBbox with
        | none => rw [hio] at hb; simp at hb
        | some iou =>
            rw [hio] at hb
            dsimp only at hb
            split_ifs at hb
            obtain rfl := Option.some.inj hb
            rfl
      · exact ih h

/-- Counterexample to C9 as stated: when the image-dimension read fails, the
catch branch of validateAnnotation returns a blocking issue (type error)
with a generic message and no bboxId at all. -/
theorem validate_catch_error_lacks_bboxId :
    validateAnnotationRecord none dupImage =
      [⟨IssueType.error, IssueCode.BBOX_OUT_OF_BOUNDS, "Failed to validate", none⟩] ∧
    (⟨IssueType.error, IssueCode.BBOX_OUT_OF_BOUNDS, "Failed to validate",
        none⟩ : QualityIssue).bboxId = none :=
  ⟨rfl, rfl⟩

/-- C9 (amended).  Every blocking issue produced by the geometry checks
(i.e. when the image's dimensions are readable) carries the offending
annotation's id — an id of one of the record's annotations — together with
its rule code; only the catch-branch read-failure issue lacks the box
reference. -/
theorem validate_errors_carry_bboxId (imgWidth imgHeight : ℚ)
    (rec : ImageAnnotationRecord) (issue : QualityIssue)
    (hmem : issue ∈ validateAnnotationRecord (some (imgWidth, imgHeight)) rec)
    (herr : issue.type = IssueType.error) :
    ∃ i, issue.bboxId = some i ∧ i ∈ rec.annotations.map (·.id) := by
  simp only [validateAnnotationRecord, List.mem_append] at hmem
  rcases hmem with h | h
  · rw [List.mem_flatMap] at h
    obtain ⟨bbox, hbbox, hin⟩ := h
    exact ⟨bbox.id, bboxIssues_bboxId imgWidth imgHeight bbox issue hin,
      List.mem_map_of_mem _ hbbox⟩
  · have hw := duplicateIssues_warning rec.annotations issue h
    rw [hw] at herr
    exact absurd herr (by simp)

/-- Witness for C9 (amended): the out-of-bounds error on the concrete
invalid record carries the offending box's id "1". -/
theorem validate_errors_carry_bboxId_witness :
    ∃ i, (⟨IssueType.error, IssueCode.BBOX_OUT_OF_BOUNDS,
        "Model bbox extends beyond image", some "1"⟩ : QualityIssue).bboxId = some i ∧
      i ∈ invalidRec.annotations.map (·.id) := by
  apply validate_errors_carry_bboxId 1000 800 invalidRec
  · norm_num [validateAnnotationRecord, invalidRec, bboxIssues, duplicateIssues]
  · rfl

/-- C10.  AddBaseBoxCommand.undo sets the target box's baseBbox to undefined
unconditionally (it stores no previous value); hence when the target already
carried a base box, execute-then-undo does not restore it and the collection
does not return to its prior state. -/
theorem addBase_undo_clears_base (anns : List BboxAnnotationUI) (modelId : String)
    (newBase : Rect) (i : ℕ) (hi : i < anns.length)
    (hid : anns[i].id = modelId) (old : Rect) (hold : anns[i].baseBbox = some old) :
    (∀ l : List BboxAnnotationUI,
      Command.undoOn (Command.addBase modelId newBase) l =
        l.map fun a => if a.id = modelId then { a with baseBbox := none } else a) ∧
    Command.undoOn (Command.addBase modelId newBase)
      (Command.execute (Command.addBase modelId newBase) anns) ≠ anns := by
  refine ⟨fun l => rfl, fun hcontra => ?_⟩
  have hmap : Command.undoOn (Command.addBase modelId newBase)
      (Command.execute (Command.addBase modelId newBase) anns) =
      anns.map fun a => if a.id = modelId then { a with baseBbox := none } else a := by
    simp only [Command.execute, Command.undoOn, List.map_map]
    apply List.map_congr_left
    intro a _
    by_cases hca : a.id = modelId
    · simp [Function.comp, hca]
    · simp [Function.comp, hca]
  rw [hmap] at hcontra
  have hh : (anns.map fun a =>
      if a.id = modelId then { a with baseBbox := none } else a)[i]? = anns[i]? := by
    rw [hcontra]
  rw [List.getElem?_map, List.getElem?_eq_getElem hi] at hh
  simp only [Option.map_some'] at hh
  have hone := Option.some.inj hh
  rw [if_pos hid] at hone
  have hb := congrArg BboxAnnotationUI.baseBbox hone
  rw [hold] at hb
  simp at hb

/-- Witness for C10: a one-box collection whose box carries a base box is
not restored by execute-then-undo of an AddBaseBoxCommand. -/
theorem addBase_undo_clears_base_witness :
    Command.undoOn (Command.addBase "m" ⟨30, 30, 40, 40⟩)
      (Command.execute (Command.addBase "m" ⟨30, 30, 40, 40⟩) [uiBoxWithBase]) ≠
      [uiBoxWithBase] :=
  (addBase_undo_clears_base [uiBoxWithBase] "m" ⟨30, 30, 40, 40⟩ 0 Nat.one_pos
    rfl ⟨10, 10, 20, 20⟩ rfl).2

/-- C8.  A base box committed through the base-drawing path (clamped by
constrainToModelBbox, then issued only when still of positive size) is fully
contained in the selected parent model box's bounds, and on such an
annotation the validator's BASE_OUTSIDE_MODEL branch cannot fire. -/
theorem commitBaseBbox_contained (startX startY currentX currentY : ℚ)
    (sel : BboxAnnotationUI) (r : Rect)
    (h : commitBaseBbox startX startY currentX currentY sel = some r) :
    (sel.x ≤ r.x ∧ sel.y ≤ r.y ∧ r.x + r.width ≤ sel.x + sel.width ∧
      r.y + r.height ≤ sel.y + sel.height) ∧
    ∀ (bid cls : String) (conf : Option ℚ) (imgWidth imgHeight : ℚ)
      (issue : QualityIssue),
      issue ∈ bboxIssues imgWidth imgHeight
        ⟨bid, ⟨sel.x, sel.y, sel.width, sel.height⟩, some r, cls, conf⟩ →
      issue.code ≠ IssueCode.BASE_OUTSIDE_MODEL := by
  simp only [commitBaseBbox] at h
  split_ifs at h with hpos
  obtain rfl := Option.some.inj h
  obtain ⟨hw, hh⟩ := hpos
  simp only [constrainToModelBbox] at hw hh ⊢
  have hw2 : 0 < min (max startX currentX) (sel.x + sel.width) -
      max (min startX currentX) sel.x := by
    by_contra hc
    push_neg at hc
    rw [max_eq_left hc] at hw
    exact lt_irrefl 0 hw
  have hh2 : 0 < min (max startY currentY) (sel.y + sel.height) -
      max (min startY currentY) sel.y := by
    by_contra hc
    push_neg at hc
    rw [max_eq_left hc] at hh
    exact lt_irrefl 0 hh
  have hminx : min (max startX currentX) (sel.x + sel.width) ≤ sel.x + sel.width :=
    min_le_right _ _
  have hminy : min (max startY currentY) (sel.y + sel.height) ≤ sel.y + sel.height :=
    min_le_right _ _
  have hc1 : sel.x ≤ max (min startX currentX) sel.x := le_max_right _ _
  have hc2 : sel.y ≤ max (min startY currentY) sel.y := le_max_right _ _
  have hc3 : max (min startX currentX) sel.x +
      max 0 (min (max startX currentX) (sel.x + sel.width) -
        max (min startX currentX) sel.x) ≤ sel.x + sel.width := by
    rw [max_eq_right (le_of_lt hw2)]
    linarith
  have hc4 : max (min startY currentY) sel.y +
      max 0 (min (max startY currentY) (sel.y + sel.height) -
        max (min startY currentY) sel.y) ≤ sel.y + sel.height := by
    rw [max_eq_right (le_of_lt hh2)]
    linarith
  refine ⟨⟨hc1, hc2, hc3, hc4⟩, ?_⟩
  intro bid cls conf imgWidth imgHeight issue hmem
  simp only [bboxIssues, List.mem_append] at hmem
  rcases hmem with (hmem | hmem) | hmem
  · split_ifs at hmem <;> simp_all
  · split_ifs at hmem <;> simp_all
  · rw [if_neg (by push_neg; exact ⟨hc1, hc2, hc3, hc4⟩)] at hmem
    simp at hmem

/-- Witness for C8: committing a drag from (10,10) to (50,60) inside a
100x100 model box at the origin yields the base box (10,10,40,50), contained
in the parent. -/
theorem commitBaseBbox_contained_witness :
    sampleSel.x ≤ (10 : ℚ) ∧ sampleSel.y ≤ (10 : ℚ) ∧
    (10 : ℚ) + 40 ≤ sampleSel.x + sampleSel.width ∧
    (10 : ℚ) + 50 ≤ sampleSel.y + sampleSel.height := by
  have h := (commitBaseBbox_contained 10 10 50 60 sampleSel ⟨10, 10, 40, 50⟩
    (by norm_num [commitBaseBbox, constrainToModelBbox, sampleSel])).1
  simpa using h

/-- Executing a sequence of add-box commands from a state with an empty redo
stack appends the boxes to the collection and their commands to the undo
stack, leaving the redo stack empty. -/
lemma execAdds_closed (boxes : List BboxAnnotationUI) :
    ∀ (anns : List BboxAnnotationUI) (us : List Command),
      execAdds boxes ⟨anns, us, []⟩ =
        ⟨anns ++ boxes, us ++ boxes.map Command.addModel, []⟩ := by
  induction boxes with
  | nil =>
      intro anns us
      simp [execAdds]
  | cons b bs ih =>
      intro anns us
      have h1 : execAdds (b :: bs) ⟨anns, us, []⟩ =
          execAdds bs ⟨anns ++ [b], us ++ [Command.addModel b], []⟩ := rfl
      rw [h1, ih]
      simp

/-- undo pops the last command of a nonempty undo stack. -/
lemma undo_push (anns : List BboxAnnotationUI) (us rs : List Command) (c : Command) :
    undo ⟨anns, us ++ [c], rs⟩ = ⟨c.undoOn anns, us, rs ++ [c]⟩ := by
  simp [undo, List.getLast?_concat, List.dropLast_concat]

/-- redo pops the last command of a nonempty redo stack. -/
lemma redo_push (anns : List BboxAnnotationUI) (us rs : List Command) (c : Command) :
    redo ⟨anns, us, rs ++ [c]⟩ = ⟨c.execute anns, us ++ [c], rs⟩ := by
  simp [redo, List.getLast?_concat, List.dropLast_concat]

/-- Undoing an add-box command over a collection that did not already hold
the box's id removes exactly that box. -/
lemma addModel_undoOn_append (anns : List BboxAnnotationUI) (b : BboxAnnotationUI)
    (h : b.id ∉ anns.map (·.id)) :
    Command.undoOn (Command.addModel b) (anns ++ [b]) = anns := by
  simp only [Command.undoOn, List.filter_append]
  have h1 : anns.filter (fun a => a.id != b.id) = anns := by
    apply List.filter_eq_self.mpr
    intro a ha
    have hne : a.id ≠ b.id := by
      intro he
      exact h (he ▸ List.mem_map_of_mem (·.id) ha)
    simpa using hne
  rw [h1]
  simp

/-- Undoing as many times as there are freshly added distinct boxes on top
of the undo stack peels them all off, restoring the original collection and
moving the commands to the redo stack in reverse order. -/
lemma undoN_adds (boxes : List BboxAnnotationUI) :
    ∀ (anns : List BboxAnnotationUI) (us rs : List Command),
      (∀ b ∈ boxes, b.id ∉ anns.map (·.id)) →
      (boxes.map (·.id)).Nodup →
      undoN boxes.length ⟨anns ++ boxes, us ++ boxes.map Command.addModel, rs⟩ =
        ⟨anns, us, rs ++ (boxes.map Command.addModel).reverse⟩ := by
  induction boxes using List.reverseRecOn with
  | nil =>
      intro anns us rs hfresh hnodup
      simp [undoN]
  | append_singleton bs b ih =>
      intro anns us rs hfresh hnodup
      have hfb : b.id ∉ bs.map (·.id) := by
        rw [List.map_append] at hnodup
        simp only [List.map_cons, List.map_nil, List.nodup_append] at hnodup
        intro hmem
        exact hnodup.2.2 hmem (by simp)
      have hfa : b.id ∉ anns.map (·.id) := hfresh b (by simp)
      have hlen : (bs ++ [b]).length = bs.length + 1 := by simp
      rw [hlen]
      have hstep : undoN (bs.length + 1)
          ⟨anns ++ (bs ++ [b]), us ++ (bs ++ [b]).map Command.addModel, rs⟩ =
          undoN bs.length
            (undo ⟨anns ++ (bs ++ [b]), us ++ (bs ++ [b]).map Command.addModel, rs⟩) := by
        simp [undoN, Function.iterate_succ_apply]
      rw [hstep]
      have hu : undo ⟨anns ++ (bs ++ [b]), us ++ (bs ++ [b]).map Command.addModel, rs⟩ =
          ⟨anns ++ bs, us ++ bs.map Command.addModel, rs ++ [Command.addModel b]⟩ := by
        have e1 : anns ++ (bs ++ [b]) = (anns ++ bs) ++ [b] := by simp
        have e2 : us ++ (bs ++ [b]).map Command.addModel =
            (us ++ bs.map Command.addModel) ++ [Command.addModel b] := by simp
        rw [e1, e2, undo_push]
        have hfab : b.id ∉ (anns ++ bs).map (·.id) := by
          rw [List.map_append]
          simp only [List.mem_append]
          rintro (hmem | hmem)
          · exact hfa hmem
          · exact hfb hmem
        rw [addModel_undoOn_append (anns ++ bs) b hfab]
      rw [hu]
      have hfresh2 : ∀ x ∈ bs, x.id ∉ anns.map (·.id) := fun x hx =>
        hfresh x (by simp [hx])
      have hnodup2 : (bs.map (·.id)).Nodup := by
        rw [List.map_append] at hnodup
        simp only [List.map_cons, List.map_nil, List.nodup_append] at hnodup
        exact hnodup.1
      rw [ih anns us (rs ++ [Command.addModel b]) hfresh2 hnodup2]
      simp

/-- C6.  Starting from any collection (with the fresh editor's empty
stacks), executing N add-box commands with fresh pairwise-distinct ids and
undoing N times restores the collection exactly; and anywhere along that
undo chain, redo immediately after an undo restores exactly the state that
existed before that undo. -/
theorem add_undo_redo_roundtrip (anns boxes : List BboxAnnotationUI)
    (hfresh : ∀ b ∈ boxes, b.id ∉ anns.map (·.id))
    (hnodup : (boxes.map (·.id)).Nodup) :
    (undoN boxes.length (execAdds boxes ⟨anns, [], []⟩)).annotations = anns ∧
    ∀ bs1 b bs2, boxes = bs1 ++ b :: bs2 →
      redo (undoN (bs2.length + 1) (execAdds boxes ⟨anns, [], []⟩)) =
        undoN bs2.length (execAdds boxes ⟨anns, [], []⟩) := by
  have hE : execAdds boxes ⟨anns, [], []⟩ =
      ⟨anns ++ boxes, boxes.map Command.addModel, []⟩ := by
    have h := execAdds_closed boxes anns []
    simpa using h
  constructor
  · rw [hE]
    have h := undoN_adds boxes anns [] [] hfresh hnodup
    simp only [List.nil_append] at h
    rw [h]
  · intro bs1 b bs2 hsplit
    subst hsplit
    rw [hE]
    have hA : anns ++ (bs1 ++ b :: bs2) = ((anns ++ bs1) ++ [b]) ++ bs2 := by simp
    have hU : (bs1 ++ b :: bs2).map Command.addModel =
        ((bs1.map Command.addModel) ++ [Command.addModel b]) ++ bs2.map Command.addModel := by
      simp
    have hfa : b.id ∉ anns.map (·.id) := hfresh b (by simp)
    rw [List.map_append, List.map_cons, List.nodup_append, List.nodup_cons] at hnodup
    obtain ⟨hn1, ⟨hnb, hn2⟩, hdisj⟩ := hnodup
    have hfb1 : b.id ∉ bs1.map (·.id) := fun hmem => hdisj hmem (by simp)
    have hfresh2 : ∀ x ∈ bs2, x.id ∉ ((anns ++ bs1) ++ [b]).map (·.id) := by
      intro x hx
      have hxid : x.id ∈ bs2.map (·.id) := List.mem_map_of_mem _ hx
      simp only [List.map_append, List.mem_append, List.map_cons, List.map_nil,
        List.mem_cons, List.mem_singleton]
      rintro ((hmem | hmem) | hmem)
      · exact hfresh x (by simp [hx]) hmem
      · exact hdisj hmem (by simp [hxid])
      · rcases hmem with hmem | hmem
        · exact hnb (hmem ▸ hxid)
        · simp at hmem
    have h1 := undoN_adds bs2 ((anns ++ bs1) ++ [b])
      ((bs1.map Command.addModel) ++ [Command.addModel b]) [] hfresh2 hn2
    simp only [List.nil_append] at h1
    rw [hA, hU, h1]
    have hsucc : undoN (bs2.length + 1)
        ⟨((anns ++ bs1) ++ [b]) ++ bs2,
          ((bs1.map Command.addModel) ++ [Command.addModel b]) ++ bs2.map Command.addModel,
          []⟩ =
        undo (undoN bs2.length
          ⟨((anns ++ bs1) ++ [b]) ++ bs2,
            ((bs1.map Command.addModel) ++ [Command.addModel b]) ++ bs2.map Command.addModel,
            []⟩) := by
      simp [undoN, Function.iterate_succ_apply']
    rw [hsucc, h1, undo_push]
    have hfab : b.id ∉ (anns ++ bs1).map (·.id) := by
      rw [List.map_append]
      simp only [List.mem_append]
      rintro (hmem | hmem)
      · exact hfa hmem
      · exact hfb1 hmem
    rw [addModel_undoOn_append (anns ++ bs1) b hfab, redo_push]
    simp [Command.execute]

/-- Witness for C6: adding two fresh boxes to a one-box collection and
undoing twice restores the original collection. -/
theorem add_undo_redo_roundtrip_witness :
    (undoN 2 (execAdds [uiBoxB, uiBoxC] ⟨[uiBoxA], [], []⟩)).annotations = [uiBoxA] := by
  have h := (add_undo_redo_roundtrip [uiBoxA] [uiBoxB, uiBoxC]
    (by decide) (by decide)).1
  simpa using h
